import Mathlib

/-!
# long-season: the mock user store and the authentication handler

A shallow embedding of

* `pkg/storage/mock/mock.go` (`Factory.Users`, `UsersStorage.New`, `UsersStorage.Read`,
  `UsersStorage.All`, `UsersStorage.Update`), and
* `pkg/services/handlers/api/v1/auth.go` (`ApiAuth`).

Conventions of the embedding.

* Go `int` is `Int`. The counter only ever grows by one per successful `New`, so the
  64-bit wrap-around is out of reach of any run and is not modelled. What is said of the
  incremented counter is therefore said of the states reachable from the fresh store, in
  which the counter is the number of stored records, and not of arbitrary field values.
* A Go `map[int]models.User` is a finite association list with pairwise distinct keys
  (`AList`). `m[k] = v` is `AList.insert`, `v, ok := m[k]` is `AList.lookup`,
  `len(m)` is the number of entries.
* Go leaves the order in which `range` visits a map unspecified, and it may differ from
  one loop to the next. Every operation that ranges over the map therefore takes a
  `RangeOrder`: an arbitrary rearrangement of the entries. Statements quantify over it.
* The mutex is not modelled: every operation is a function from the state before to the
  result and the state after, which is what a caller holding the lock observes.
-/

namespace LongSeason

/-! ## Data model -/

/-- Modelled from the spec: `models.User` (package `models` is not among the sources).
The spec names `ID`, `Nickname` and the password hash (the field the handler reads as
`Password`); every other profile field is payload the store keeps but never inspects,
gathered here in `Profile`. -/
structure User where
  ID : Int
  Nickname : String
  Password : List UInt8
  Profile : List UInt8
deriving DecidableEq, Repr

/-- The Go zero value of `models.User`: what `make([]models.User, n)` fills a slice with. -/
instance : Inhabited User := ⟨{ ID := 0, Nickname := "", Password := [], Profile := [] }⟩

/-- Modelled from the spec: the errors of package `storage/errors` (not among the
sources), `NicknameTaken(nickname)` and `NoSuchID(id)`. -/
inductive StorageError where
  | NicknameTaken (nickname : String)
  | NoID (id : Int)
deriving DecidableEq, Repr

/-- Constructor `serrors.ErrNicknameTaken`. -/
def ErrNicknameTaken (nickname : String) : StorageError := StorageError.NicknameTaken nickname

/-- Constructor `serrors.ErrNoID`. -/
def ErrNoID (id : Int) : StorageError := StorageError.NoID id

/-- One key/value pair of the Go map. -/
abbrev Entry := Sigma (fun _ : Int => User)

/-- The Go type `map[int]models.User`. -/
abbrev UserMap := AList (fun _ : Int => User)

/-- The order in which one `range` loop visits the entries of a map: any rearrangement. -/
structure RangeOrder where
  visit : List Entry → List Entry
  perm : ∀ l, List.Perm (visit l) l

/-- The loop that visits the entries in the order they are stored. -/
def RangeOrder.stored : RangeOrder := ⟨fun l => l, fun l => List.Perm.refl l⟩

/-- The loop that visits the entries in the opposite order. -/
def RangeOrder.reversed : RangeOrder := ⟨List.reverse, fun l => List.reverse_perm l⟩

/-- The struct `UsersStorage` without its mutex. -/
structure UsersStorage where
  data : UserMap
  counter : Int

/-- The store built by `Factory.Users`: an empty map and counter `0`. -/
def Factory.Users : UsersStorage := { data := ∅, counter := 0 }

/-! ## Store operations -/

/-- The method `UsersStorage.New`: range over the map, fail at the first record whose
nickname equals the new one; otherwise store the user under the counter, with `ID` set
to the counter, return the counter and (deferred) increment it. -/
def UsersStorage.New (s : UsersStorage) (ro : RangeOrder) (newUser : User) :
    Except StorageError Int × UsersStorage :=
  match (ro.visit s.data.entries).find? (fun e => e.2.Nickname == newUser.Nickname) with
  | some e => (Except.error (ErrNicknameTaken e.2.Nickname), s)
  | none =>
    let newUser := { newUser with ID := s.counter }
    (Except.ok s.counter, { data := s.data.insert s.counter newUser, counter := s.counter + 1 })

/-- The method `UsersStorage.Read`. -/
def UsersStorage.Read (s : UsersStorage) (id : Int) : Except StorageError User × UsersStorage :=
  match s.data.lookup id with
  | none => (Except.error (ErrNoID id), s)
  | some user => (Except.ok user, s)

/-- The method `UsersStorage.All`: `res` starts as `make([]models.User, len, len)`, that is
`len(s.data)` zero values, and every visited record is appended to it. -/
def UsersStorage.All (s : UsersStorage) (ro : RangeOrder) :
    Except StorageError (List User) × UsersStorage :=
  let res := List.replicate s.data.entries.length (default : User)
  (Except.ok ((ro.visit s.data.entries).foldl (fun res e => res ++ [e.2]) res), s)

/-- The method `UsersStorage.Update`. -/
def UsersStorage.Update (s : UsersStorage) (u : User) : Option StorageError × UsersStorage :=
  match s.data.lookup u.ID with
  | none => (some (ErrNoID u.ID), s)
  | some _ => (none, { s with data := s.data.insert u.ID u })

/-! ## Sequences of calls -/

/-- A mutating call on the store, with the order its loop (if any) will take. -/
inductive Call where
  | New (ro : RangeOrder) (u : User)
  | Update (u : User)

/-- What one call gave back: the id or error of `New`, the error (or none) of `Update`. -/
inductive Reply where
  | New (r : Except StorageError Int)
  | Update (r : Option StorageError)

/-- One call: the reply and the state after. -/
def step (s : UsersStorage) : Call → Reply × UsersStorage
  | Call.New ro u => (Reply.New (s.New ro u).1, (s.New ro u).2)
  | Call.Update u => (Reply.Update (s.Update u).1, (s.Update u).2)

/-- The calls of a list run in order from `s`: the replies in call order and the final state. -/
def run (s : UsersStorage) : List Call → List Reply × UsersStorage
  | [] => ([], s)
  | c :: cs => ((step s c).1 :: (run (step s c).2 cs).1, (run (step s c).2 cs).2)

/-- The ids returned by the successful `New` calls, in call order. -/
def newIds : List Reply → List Int
  | [] => []
  | Reply.New (Except.ok id) :: rs => id :: newIds rs
  | _ :: rs => newIds rs

/-- The states reachable from the freshly created store by `New` and `Update` calls. -/
def Reachable (s : UsersStorage) : Prop := ∃ cs : List Call, (run Factory.Users cs).2 = s

/-- No stored record holds the nickname. -/
def NicknameFree (s : UsersStorage) (nickname : String) : Prop :=
  ∀ e ∈ s.data.entries, e.2.Nickname ≠ nickname

/-- No two records under distinct keys hold the same nickname. -/
def UniqueNicknames (s : UsersStorage) : Prop :=
  ∀ e₁ ∈ s.data.entries, ∀ e₂ ∈ s.data.entries, e₁.1 ≠ e₂.1 → e₁.2.Nickname ≠ e₂.2.Nickname

/-- The property that every record sits under the key equal to its `ID` field. -/
def KeyIsID (s : UsersStorage) : Prop := ∀ k u, s.data.lookup k = some u → u.ID = k

/-! ## The authentication handler -/

/-- Equality of Go results `(value, error)` is decidable when that of both parts is. -/
instance instDecidableEqExcept {ε α : Type} [DecidableEq ε] [DecidableEq α] :
    DecidableEq (Except ε α)
  | Except.ok a, Except.ok b =>
    if h : a = b then isTrue (by rw [h]) else isFalse (by intro h2; cases h2; exact h rfl)
  | Except.error a, Except.error b =>
    if h : a = b then isTrue (by rw [h]) else isFalse (by intro h2; cases h2; exact h rfl)
  | Except.ok _, Except.error _ => isFalse (by intro h; cases h)
  | Except.error _, Except.ok _ => isFalse (by intro h; cases h)

/-- Modelled from the spec: the two fields of `models.Config` the handler reads. -/
structure Config where
  JWTSecret : String
  AppName : String
deriving DecidableEq, Repr

/-- The request body type `payload` declared inside `ApiAuth`. -/
structure payload where
  Nickname : String
  Password : String
deriving DecidableEq, Repr

/-- The struct `result.JSONErrorBody` as the handler fills it. -/
structure JSONErrorBody where
  Message : String
  Code : Nat
  Type_ : String
deriving DecidableEq, Repr

/-- The struct `models.Claims` as the handler fills it: the embedded `jwt.StandardClaims`
fields followed by `Nickname` and `UserID`. Times are nanoseconds. -/
structure Claims where
  Issuer : String
  Audience : List String
  Subject : String
  ExpiresAt : Int
  IssuedAt : Int
  ID : String
  Nickname : String
  UserID : Int
deriving DecidableEq, Repr

/-- The struct `http.Cookie` as the handler fills it. -/
structure Cookie where
  Name : String
  Expires : Int
  Value : String
  HttpOnly : Bool
  Path : String
deriving DecidableEq, Repr

/-- What the handler does to the response writer, one constructor per call it makes:
`result.JSONError`, `http.SetCookie`, and `gores.JSONIndent` with the `response` body
(whose only field is the token). -/
inductive Write where
  | JSONError (body : JSONErrorBody)
  | SetCookie (cookie : Cookie)
  | JSONIndent (code : Nat) (token : String)
deriving DecidableEq, Repr

def StatusOK : Nat := 200
def StatusBadRequest : Nat := 400
def StatusUnauthorized : Nat := 401
def StatusNotFound : Nat := 404
def StatusInternalServerError : Nat := 500

/-- The duration `time.Hour` in nanoseconds. -/
def Hour : Int := 3600 * 1000000000

/-- The UTF-8 bytes of one character. -/
def utf8Bytes (c : Char) : List UInt8 :=
  let n := c.toNat
  if n < 128 then [UInt8.ofNat n]
  else if n < 2048 then [UInt8.ofNat (192 + n / 64), UInt8.ofNat (128 + n % 64)]
  else if n < 65536 then
    [UInt8.ofNat (224 + n / 4096), UInt8.ofNat (128 + n / 64 % 64), UInt8.ofNat (128 + n % 64)]
  else
    [UInt8.ofNat (240 + n / 262144), UInt8.ofNat (128 + n / 4096 % 64),
     UInt8.ofNat (128 + n / 64 % 64), UInt8.ofNat (128 + n % 64)]

/-- The conversion `[]byte(s)` of a Go string: its bytes, here the UTF-8 encoding. -/
def bytesOf (s : String) : List UInt8 := s.toList.flatMap utf8Bytes

/-- The library calls the handler makes after decoding, as parameters:
`bcrypt.CompareHashAndPassword` (`true` when it returns no error), `jwt.NewSignerHS`
followed by `jwt.NewBuilder` (the builder's `Build` when a signer could be made),
`time.Now` and `uuid.New`. -/
structure Collaborators where
  CompareHashAndPassword : List UInt8 → List UInt8 → Bool
  NewSignerHS : List UInt8 → Option (Claims → Option String)
  Now : Int
  NewUUID : String

/-- The handler returned by `ApiAuth`, as the list of writes it makes on the response.
`decoded` is what `json.Decode` made of the request body (`none` when it failed) and
`db` is what the store's `All` returns. -/
def ApiAuth (env : Collaborators) (config : Config) (db : Except StorageError (List User))
    (decoded : Option payload) : List Write :=
  match decoded with
  | none =>
    [Write.JSONError ⟨"could not understand payload", StatusBadRequest, "bad-request"⟩]
  | some input =>
  match db with
  | Except.error _ =>
    [Write.JSONError ⟨"ooops! things are not going that great after all",
      StatusInternalServerError, "internal-server-error"⟩]
  | Except.ok users =>
  match users.find? (fun user => user.Nickname == input.Nickname) with
  | none =>
    [Write.JSONError ⟨"there is no user with given nickname", StatusNotFound, "not-found"⟩]
  | some m =>
  if env.CompareHashAndPassword m.Password (bytesOf input.Password) = false then
    [Write.JSONError ⟨"given password does not match", StatusUnauthorized, "unauthorized"⟩]
  else
  match env.NewSignerHS (bytesOf config.JWTSecret) with
  | none =>
    [Write.JSONError ⟨"ooops! things are not going that great after all",
      StatusInternalServerError, "internal-server-error"⟩]
  | some build =>
    let now := env.Now
    let id := env.NewUUID
    match build
      { Issuer := config.AppName
        Audience := ["ls-apiv1"]
        Subject := "auth"
        ExpiresAt := now + Hour * 48
        IssuedAt := now
        ID := id
        Nickname := m.Nickname
        UserID := m.ID } with
    | none =>
      [Write.JSONError ⟨"ooops! things are not going that great after all",
        StatusInternalServerError, "internal-server-error"⟩]
    | some token =>
      [Write.SetCookie
         { Name := "jwt-token", Expires := now + Hour * 4, Value := token,
           HttpOnly := true, Path := "/" },
       Write.JSONIndent StatusOK token]

/-- The handler wired to the mock store: `db.All` is `UsersStorage.All` on state `s`. -/
def ApiAuthMock (env : Collaborators) (config : Config) (s : UsersStorage) (ro : RangeOrder)
    (decoded : Option payload) : List Write :=
  ApiAuth env config (s.All ro).1 decoded

/-! ## Sample data -/

/-- A member record as a caller would pass it to `New`. -/
def alice : User := { ID := 0, Nickname := "alice", Password := [36, 50, 97], Profile := [1] }

/-- A second member record. -/
def bob : User := { ID := 7, Nickname := "bob", Password := [36, 50, 98], Profile := [] }

/-- A member record with the empty nickname. -/
def anon : User := { ID := 0, Nickname := "", Password := [36, 50, 99], Profile := [] }

/-- The store after `New(alice)` on the fresh store. -/
def storeAlice : UsersStorage := (Factory.Users.New RangeOrder.stored alice).2

/-- The store after `New(alice)` then `New(bob)`. -/
def storeAliceBob : UsersStorage := (storeAlice.New RangeOrder.stored bob).2

/-- Sample collaborators: the verifier accepts exactly the pairs whose hash is at least
three bytes long and whose password is `secret123`; signing always works and the token
spells out the identity claims, the nickname followed by one `i` per unit of the user id. -/
def sampleCollaborators : Collaborators where
  CompareHashAndPassword := fun hash pw =>
    decide (3 ≤ hash.length) && decide (pw = bytesOf "secret123")
  NewSignerHS := fun _ =>
    some (fun c => some (c.Nickname ++ "#" ++ String.mk (List.replicate c.UserID.toNat 'i')))
  Now := 1000
  NewUUID := "u-1"

/-- Sample configuration. -/
def sampleConfig : Config := { JWTSecret := "k", AppName := "long-season" }

/-! ## Reading a response, and runs with all four operations -/

/-- The cookies set on a response, in the order they were set. -/
def cookies : List Write → List Cookie
  | [] => []
  | Write.SetCookie c :: ws => c :: cookies ws
  | _ :: ws => cookies ws

/-- The error bodies written on a response by `result.JSONError`, in order. -/
def errorResponses : List Write → List JSONErrorBody
  | [] => []
  | Write.JSONError b :: ws => b :: errorResponses ws
  | _ :: ws => errorResponses ws

/-- The success bodies written on a response by `gores.JSONIndent`: status and token. -/
def successBodies : List Write → List (Nat × String)
  | [] => []
  | Write.JSONIndent code token :: ws => (code, token) :: successBodies ws
  | _ :: ws => successBodies ws

/-- A call of any of the four methods of the store. -/
inductive Op where
  | New (ro : RangeOrder) (u : User)
  | Read (id : Int)
  | All (ro : RangeOrder)
  | Update (u : User)

/-- The state of the store after one call. -/
def Op.after (s : UsersStorage) : Op → UsersStorage
  | Op.New ro u => (s.New ro u).2
  | Op.Read id => (s.Read id).2
  | Op.All ro => (s.All ro).2
  | Op.Update u => (s.Update u).2

/-- The state of the store after the calls of a list, made in order from `s`. -/
def runOps (s : UsersStorage) : List Op → UsersStorage
  | [] => s
  | op :: ops => runOps (Op.after s op) ops

/-- The invariant of the reachable states: the keys are exactly `0, ..., counter - 1`, as
many records are stored as the counter says, and the counter is not negative. -/
def Dense (s : UsersStorage) : Prop :=
  (∀ k : Int, k ∈ s.data ↔ 0 ≤ k ∧ k < s.counter) ∧
    (s.data.entries.length : Int) = s.counter ∧ 0 ≤ s.counter

/-! ## Lemmas on the store operations -/

theorem mem_visit (ro : RangeOrder) (l : List Entry) (e : Entry) : e ∈ ro.visit l ↔ e ∈ l :=
  (ro.perm l).mem_iff

theorem New_of_free (s : UsersStorage) (ro : RangeOrder) (u : User)
    (h : NicknameFree s u.Nickname) :
    s.New ro u = (Except.ok s.counter,
      { data := s.data.insert s.counter { u with ID := s.counter },
        counter := s.counter + 1 }) := by
  have hnone : (ro.visit s.data.entries).find? (fun e => e.2.Nickname == u.Nickname) = none := by
    rw [List.find?_eq_none]
    intro e he
    have := h e ((mem_visit ro _ e).1 he)
    simpa using this
  simp only [UsersStorage.New, hnone]

theorem New_of_taken (s : UsersStorage) (ro : RangeOrder) (u : User)
    (h : ∃ e ∈ s.data.entries, e.2.Nickname = u.Nickname) :
    s.New ro u = (Except.error (ErrNicknameTaken u.Nickname), s) := by
  obtain ⟨e, he, hn⟩ := h
  cases hf : (ro.visit s.data.entries).find? (fun e => e.2.Nickname == u.Nickname) with
  | none =>
    rw [List.find?_eq_none] at hf
    have := hf e ((mem_visit ro _ e).2 he)
    simp [hn] at this
  | some e' =>
    have hp := List.find?_some hf
    have hp' : e'.2.Nickname = u.Nickname := by simpa using hp
    simp only [UsersStorage.New, hf, hp']

theorem free_or_taken (s : UsersStorage) (n : String) :
    NicknameFree s n ∨ ∃ e ∈ s.data.entries, e.2.Nickname = n := by
  by_cases h : ∃ e ∈ s.data.entries, e.2.Nickname = n
  · exact Or.inr h
  · refine Or.inl (fun e he hn => h ⟨e, he, hn⟩)

theorem Update_of_present (s : UsersStorage) (u old : User) (h : s.data.lookup u.ID = some old) :
    s.Update u = (none, { s with data := s.data.insert u.ID u }) := by
  simp only [UsersStorage.Update, h]

theorem Update_of_absent (s : UsersStorage) (u : User) (h : s.data.lookup u.ID = none) :
    s.Update u = (some (ErrNoID u.ID), s) := by
  simp only [UsersStorage.Update, h]

theorem foldl_append_values (l : List Entry) (init : List User) :
    l.foldl (fun res e => res ++ [e.2]) init = init ++ l.map (fun e => e.2) := by
  induction l generalizing init with
  | nil => simp
  | cons e l ih => simp [ih]

theorem All_eq (s : UsersStorage) (ro : RangeOrder) :
    s.All ro = (Except.ok (List.replicate s.data.entries.length (default : User) ++
      (ro.visit s.data.entries).map (fun e => e.2)), s) := by
  simp only [UsersStorage.All, foldl_append_values]

/-! ## Claims on `New`, `Read`, `All` and `Update` -/

/-- C1: in every state reachable from the empty store by `New`/`Update` calls, for every
user `u` whose nickname no stored record holds, `New(u)` succeeds with some id and
`Read(id)` right after succeeds with the record `u` whose `ID` field is replaced by `id`. -/
theorem C1_read_after_new (s : UsersStorage) (ro : RangeOrder) (u : User)
    (_hr : Reachable s) (hfree : NicknameFree s u.Nickname) :
    ∃ id, (s.New ro u).1 = Except.ok id ∧
      ((s.New ro u).2.Read id).1 = Except.ok { u with ID := id } := by
  refine ⟨s.counter, ?_, ?_⟩
  · rw [New_of_free s ro u hfree]
  · rw [New_of_free s ro u hfree]
    simp only [UsersStorage.Read, AList.lookup_insert]

theorem C1_read_after_new_witness :
    ∃ id, (storeAlice.New RangeOrder.reversed bob).1 = Except.ok id ∧
      ((storeAlice.New RangeOrder.reversed bob).2.Read id).1 = Except.ok { bob with ID := id } :=
  C1_read_after_new storeAlice RangeOrder.reversed bob
    ⟨[Call.New RangeOrder.stored alice], rfl⟩ (by unfold NicknameFree; decide)

/-- C2: when some stored record holds the nickname of `u`, `New(u)` fails with
`NicknameTaken(u.Nickname)` and the store after is the store before (same map, same
counter), whatever order the scan takes. -/
theorem C2_new_taken_fails (s : UsersStorage) (ro : RangeOrder) (u : User)
    (h : ∃ e ∈ s.data.entries, e.2.Nickname = u.Nickname) :
    (s.New ro u).1 = Except.error (ErrNicknameTaken u.Nickname) ∧ (s.New ro u).2 = s := by
  rw [New_of_taken s ro u h]
  exact ⟨rfl, rfl⟩

theorem C2_new_taken_fails_witness :
    (storeAliceBob.New RangeOrder.reversed { bob with Password := [] }).1
        = Except.error (ErrNicknameTaken "bob") ∧
      (storeAliceBob.New RangeOrder.reversed { bob with Password := [] }).2 = storeAliceBob :=
  C2_new_taken_fails storeAliceBob RangeOrder.reversed { bob with Password := [] }
    ⟨⟨1, { bob with ID := 1 }⟩, by decide, rfl⟩

/-- C4: the claim fails on the store holding the single record of alice: `All` returns two
elements, a zero-valued `User` followed by the stored record, although one record is
stored; the result is not a rearrangement of the stored records. -/
theorem C4_all_prepends_zero_values :
    storeAlice.data.entries.map (fun e => e.2) = [{ alice with ID := 0 }] ∧
      (storeAlice.All RangeOrder.stored).1 = Except.ok [default, { alice with ID := 0 }] ∧
      ¬ List.Perm [default, { alice with ID := 0 }] (storeAlice.data.entries.map (fun e => e.2)) := by
  refine ⟨by decide, by decide, ?_⟩
  intro h
  have := h.length_eq
  revert this
  decide

/-- C8: when a record with key `u.ID` exists, `Update(u)` returns no error, the record under
`u.ID` afterwards is `u` itself, the record under every other key is what it was, a key is
present afterwards exactly when it was present before, and the counter is unchanged. -/
theorem C8_update_replaces (s : UsersStorage) (u : User) (h : u.ID ∈ s.data) :
    (s.Update u).1 = none ∧
      (s.Update u).2.data.lookup u.ID = some u ∧
      (∀ k, k ≠ u.ID → (s.Update u).2.data.lookup k = s.data.lookup k) ∧
      (∀ k, k ∈ (s.Update u).2.data ↔ k ∈ s.data) ∧
      (s.Update u).2.counter = s.counter := by
  obtain ⟨old, hold⟩ := Option.isSome_iff_exists.1 (AList.lookup_isSome.2 h)
  rw [Update_of_present s u old hold]
  refine ⟨rfl, AList.lookup_insert _, fun k hk => AList.lookup_insert_ne hk, fun k => ?_, rfl⟩
  simp only [AList.mem_insert]
  constructor
  · rintro (rfl | hk)
    · exact h
    · exact hk
  · exact Or.inr

theorem C8_update_replaces_witness :
    (storeAliceBob.Update { alice with Nickname := "carol" }).1 = none ∧
      (storeAliceBob.Update { alice with Nickname := "carol" }).2.data.lookup
          ({ alice with Nickname := "carol" } : User).ID
        = some { alice with Nickname := "carol" } ∧
      (∀ k, k ≠ ({ alice with Nickname := "carol" } : User).ID →
        (storeAliceBob.Update { alice with Nickname := "carol" }).2.data.lookup k
          = storeAliceBob.data.lookup k) ∧
      (∀ k, k ∈ (storeAliceBob.Update { alice with Nickname := "carol" }).2.data
        ↔ k ∈ storeAliceBob.data) ∧
      (storeAliceBob.Update { alice with Nickname := "carol" }).2.counter
        = storeAliceBob.counter :=
  C8_update_replaces storeAliceBob { alice with Nickname := "carol" } (by decide)

/-! ## Lemmas on sequences of calls -/

theorem New_cases (s : UsersStorage) (ro : RangeOrder) (u : User) :
    (NicknameFree s u.Nickname ∧ s.New ro u = (Except.ok s.counter,
      { data := s.data.insert s.counter { u with ID := s.counter },
        counter := s.counter + 1 })) ∨
    ((∃ e ∈ s.data.entries, e.2.Nickname = u.Nickname) ∧
      s.New ro u = (Except.error (ErrNicknameTaken u.Nickname), s)) := by
  rcases free_or_taken s u.Nickname with h | h
  · exact Or.inl ⟨h, New_of_free s ro u h⟩
  · exact Or.inr ⟨h, New_of_taken s ro u h⟩

theorem Update_cases (s : UsersStorage) (u : User) :
    (u.ID ∈ s.data ∧ s.Update u = (none, { s with data := s.data.insert u.ID u })) ∨
    (u.ID ∉ s.data ∧ s.Update u = (some (ErrNoID u.ID), s)) := by
  cases h : s.data.lookup u.ID with
  | none => exact Or.inr ⟨AList.lookup_eq_none.1 h, Update_of_absent s u h⟩
  | some old =>
    refine Or.inl ⟨AList.lookup_isSome.1 (by simp [h]), Update_of_present s u old h⟩

/-- Every key of the final map was a key at the start or was returned by a successful `New`. -/
theorem keys_of_run (cs : List Call) (s : UsersStorage) (k : Int)
    (hk : k ∈ (run s cs).2.data) : k ∈ s.data ∨ k ∈ newIds (run s cs).1 := by
  induction cs generalizing s with
  | nil => exact Or.inl hk
  | cons c cs ih =>
    cases c with
    | New ro u =>
      rcases New_cases s ro u with ⟨_, h⟩ | ⟨_, h⟩
      · simp only [run, step, h, newIds] at hk ⊢
        rcases ih _ hk with h1 | h1
        · rcases (AList.mem_insert _).1 h1 with rfl | h2
          · exact Or.inr (List.mem_cons_self _ _)
          · exact Or.inl h2
        · exact Or.inr (List.mem_cons_of_mem _ h1)
      · simp only [run, step, h, newIds] at hk ⊢
        exact ih _ hk
    | Update u =>
      rcases Update_cases s u with ⟨hin, h⟩ | ⟨_, h⟩
      · simp only [run, step, h, newIds] at hk ⊢
        rcases ih _ hk with h1 | h1
        · rcases (AList.mem_insert _).1 h1 with rfl | h2
          · exact Or.inl hin
          · exact Or.inl h2
        · exact Or.inr h1
      · simp only [run, step, h, newIds] at hk ⊢
        exact ih _ hk

/-- The ids handed out along a run count up from the starting counter, and the final counter
is the starting counter plus the number of ids handed out. -/
theorem ids_of_run (cs : List Call) (s : UsersStorage) :
    newIds (run s cs).1
        = (List.range (newIds (run s cs).1).length).map (fun i : Nat => s.counter + (i : Int)) ∧
      (run s cs).2.counter = s.counter + ((newIds (run s cs).1).length : Int) := by
  induction cs generalizing s with
  | nil => simp [run, newIds]
  | cons c cs ih =>
    cases c with
    | New ro u =>
      rcases New_cases s ro u with ⟨_, h⟩ | ⟨_, h⟩
      · obtain ⟨h1, h2⟩ := ih
          { data := s.data.insert s.counter { u with ID := s.counter }, counter := s.counter + 1 }
        simp only [run, step, h, newIds, List.length_cons]
        refine ⟨?_, ?_⟩
        · rw [List.range_succ_eq_map, List.map_cons, List.map_map]
          simp only [Nat.cast_zero, add_zero, List.cons.injEq, true_and]
          conv_lhs => rw [h1]
          apply List.map_congr_left
          intro i _
          simp only [Function.comp, Nat.cast_succ]
          ring
        · rw [h2]
          push_cast
          ring
      · simp only [run, step, h, newIds]
        exact ih s
    | Update u =>
      rcases Update_cases s u with ⟨_, h⟩ | ⟨_, h⟩
      · simp only [run, step, h, newIds]
        exact ih { s with data := s.data.insert u.ID u }
      · simp only [run, step, h, newIds]
        exact ih s


theorem KeyIsID_insert (s : UsersStorage) (c : Int) (k : Int) (u : User) (hs : KeyIsID s)
    (hu : u.ID = k) : KeyIsID { data := s.data.insert k u, counter := c } := by
  intro k' u' h
  by_cases hk : k' = k
  · subst hk
    rw [AList.lookup_insert] at h
    cases h
    exact hu
  · rw [AList.lookup_insert_ne hk] at h
    exact hs k' u' h

theorem KeyIsID_run (cs : List Call) (s : UsersStorage) (hs : KeyIsID s) :
    KeyIsID (run s cs).2 := by
  induction cs generalizing s with
  | nil => exact hs
  | cons c cs ih =>
    cases c with
    | New ro u =>
      rcases New_cases s ro u with ⟨_, h⟩ | ⟨_, h⟩
      · simp only [run, step, h]
        exact ih _ (KeyIsID_insert s _ s.counter _ hs rfl)
      · simp only [run, step, h]
        exact ih s hs
    | Update u =>
      rcases Update_cases s u with ⟨_, h⟩ | ⟨_, h⟩
      · simp only [run, step, h]
        exact ih _ (KeyIsID_insert s _ u.ID u hs rfl)
      · simp only [run, step, h]
        exact ih s hs

theorem UniqueNicknames_New (s : UsersStorage) (ro : RangeOrder) (u : User)
    (hs : UniqueNicknames s) : UniqueNicknames (s.New ro u).2 := by
  rcases New_cases s ro u with ⟨hfree, h⟩ | ⟨_, h⟩
  · rw [h]
    have hold : ∀ e ∈ List.kerase s.counter s.data.entries, e ∈ s.data.entries :=
      fun e he => (List.kerase_sublist _ _).subset he
    intro e₁ h₁ e₂ h₂ hne
    simp only [AList.insert_entries, List.mem_cons] at h₁ h₂
    rcases h₁ with rfl | h₁ <;> rcases h₂ with rfl | h₂
    · exact absurd rfl hne
    · exact fun heq => hfree e₂ (hold e₂ h₂) heq.symm
    · exact fun heq => hfree e₁ (hold e₁ h₁) heq
    · exact hs e₁ (hold e₁ h₁) e₂ (hold e₂ h₂) hne
  · rw [h]
    exact hs

theorem UniqueNicknames_run_news (news : List (RangeOrder × User)) (s : UsersStorage)
    (hs : UniqueNicknames s) :
    UniqueNicknames (run s (news.map (fun p => Call.New p.1 p.2))).2 := by
  induction news generalizing s with
  | nil => exact hs
  | cons p news ih =>
    simp only [List.map_cons, run, step]
    exact ih _ (UniqueNicknames_New s p.1 p.2 hs)

theorem range_cast_pairwise (n : Nat) :
    List.Pairwise (fun a b : Int => a < b) ((List.range n).map (fun i : Nat => (i : Int))) := by
  rw [List.pairwise_map]
  exact (List.pairwise_lt_range n).imp (fun h => by exact_mod_cast h)

theorem range_cast_chain (n : Nat) :
    List.Chain' (fun a b : Int => b = a + 1) ((List.range n).map (fun i : Nat => (i : Int))) := by
  rw [List.chain'_map]
  cases n with
  | zero => simp
  | succ n =>
    rw [List.chain'_range_succ]
    intro m _
    push_cast
    rfl

/-! ## Claims on sequences of calls -/

/-- C7: after any sequence of `New`/`Update` calls on the fresh store, for every integer
`id` that no successful `New` of the sequence returned (negative ones and ones at or above
the counter included), `Read(id)` fails with `NoSuchID(id)`, and `Update(u)` with
`u.ID = id` fails with `NoSuchID(id)` and leaves the store as it was. -/
theorem C7_unassigned_id_fails (cs : List Call) (id : Int)
    (hid : id ∉ newIds (run Factory.Users cs).1) :
    ((run Factory.Users cs).2.Read id).1 = Except.error (ErrNoID id) ∧
      ∀ u : User, u.ID = id →
        (run Factory.Users cs).2.Update u = (some (ErrNoID id), (run Factory.Users cs).2) := by
  have hnot : id ∉ (run Factory.Users cs).2.data := by
    intro hk
    rcases keys_of_run cs Factory.Users id hk with h | h
    · exact AList.not_mem_empty id h
    · exact hid h
  have hnone : (run Factory.Users cs).2.data.lookup id = none := AList.lookup_eq_none.2 hnot
  refine ⟨by simp only [UsersStorage.Read, hnone], ?_⟩
  intro u hu
  subst hu
  exact Update_of_absent _ u hnone

theorem C7_unassigned_id_fails_witness :
    ((run Factory.Users [Call.New RangeOrder.stored alice, Call.Update { bob with ID := 0 },
        Call.New RangeOrder.reversed bob]).2.Read (-1)).1 = Except.error (ErrNoID (-1)) ∧
      ∀ u : User, u.ID = -1 →
        (run Factory.Users [Call.New RangeOrder.stored alice, Call.Update { bob with ID := 0 },
          Call.New RangeOrder.reversed bob]).2.Update u
        = (some (ErrNoID (-1)),
          (run Factory.Users [Call.New RangeOrder.stored alice,
            Call.Update { bob with ID := 0 }, Call.New RangeOrder.reversed bob]).2) :=
  C7_unassigned_id_fails [Call.New RangeOrder.stored alice, Call.Update { bob with ID := 0 },
    Call.New RangeOrder.reversed bob] (-1) (by decide)

/-- C9: `New` keeps nicknames unique: from a state in which records under distinct keys
hold distinct nicknames, the state after `New(u)`, successful or not, is again such a
state; and every state built from the fresh store by `New` calls alone is such a state. -/
theorem C9_new_keeps_nicknames_unique (s : UsersStorage) (ro : RangeOrder) (u : User)
    (hs : UniqueNicknames s) (news : List (RangeOrder × User)) :
    UniqueNicknames (s.New ro u).2 ∧
      UniqueNicknames (run Factory.Users (news.map (fun p => Call.New p.1 p.2))).2 :=
  ⟨UniqueNicknames_New s ro u hs,
   UniqueNicknames_run_news news Factory.Users
     (fun e₁ h₁ => by simp [Factory.Users] at h₁)⟩

theorem C9_new_keeps_nicknames_unique_witness :
    UniqueNicknames (storeAliceBob.New RangeOrder.reversed anon).2 ∧
      UniqueNicknames (run Factory.Users
        ([(RangeOrder.stored, alice), (RangeOrder.reversed, alice), (RangeOrder.stored, bob)].map
          (fun p => Call.New p.1 p.2))).2 :=
  C9_new_keeps_nicknames_unique storeAliceBob RangeOrder.reversed anon
    (by unfold UniqueNicknames; decide)
    [(RangeOrder.stored, alice), (RangeOrder.reversed, alice), (RangeOrder.stored, bob)]

/-- C10: along any sequence of `New`/`Update` calls on the fresh store, the ids returned by
the successful `New` calls are, in call order, `0, 1, 2, ...`: strictly increasing, pairwise
distinct, each one more than the one before; the counter at the end is the number of
successful `New` calls, so failed `New` calls and `Update` calls use up no id; and every
stored record sits under the key equal to its `ID` field. -/
theorem C10_ids_count_up (cs : List Call) :
    newIds (run Factory.Users cs).1
        = (List.range (newIds (run Factory.Users cs).1).length).map (fun i : Nat => (i : Int)) ∧
      List.Pairwise (fun a b : Int => a < b) (newIds (run Factory.Users cs).1) ∧
      (newIds (run Factory.Users cs).1).Nodup ∧
      List.Chain' (fun a b : Int => b = a + 1) (newIds (run Factory.Users cs).1) ∧
      (run Factory.Users cs).2.counter = ((newIds (run Factory.Users cs).1).length : Int) ∧
      KeyIsID (run Factory.Users cs).2 := by
  obtain ⟨h1, h2⟩ := ids_of_run cs Factory.Users
  have h1' : newIds (run Factory.Users cs).1
      = (List.range (newIds (run Factory.Users cs).1).length).map
          (fun i : Nat => (i : Int)) := by
    conv_lhs => rw [h1]
    apply List.map_congr_left
    intro i _
    simp [Factory.Users]
  have hp : List.Pairwise (fun a b : Int => a < b) (newIds (run Factory.Users cs).1) := by
    rw [h1']
    exact range_cast_pairwise _
  refine ⟨h1', hp, hp.imp (fun h => ne_of_lt h), ?_, ?_, ?_⟩
  · rw [h1']
    exact range_cast_chain _
  · rw [h2]
    simp [Factory.Users]
  · exact KeyIsID_run cs Factory.Users (fun k u h => by simp [Factory.Users] at h)

/-! ## The handler on the mock store -/

/-- On a store that holds at least one record, a request with the empty nickname is matched
against the zero-valued record that `All` puts first, whatever the store holds. -/
theorem ApiAuthMock_empty_nickname (env : Collaborators) (config : Config) (s : UsersStorage)
    (ro : RangeOrder) (p : String) (hne : s.data.entries ≠ []) :
    ApiAuthMock env config s ro (some ⟨"", p⟩)
      = ApiAuth env config (Except.ok [default]) (some ⟨"", p⟩) := by
  obtain ⟨n, hn⟩ : ∃ n, s.data.entries.length = n + 1 :=
    Nat.exists_eq_succ_of_ne_zero (fun h => hne (List.length_eq_zero.1 h))
  have hfind : ∀ rest : List User,
      (List.replicate (n + 1) (default : User) ++ rest).find?
        (fun user => user.Nickname == "") = some default := by
    intro rest
    rw [List.replicate_succ, List.cons_append, List.find?_cons_of_pos]
    rfl
  have hone : ([default] : List User).find? (fun user => user.Nickname == "") = some default := by
    rfl
  simp only [ApiAuthMock, ApiAuth, All_eq, hn, hfind, hone]

/-- A request matched against the zero-valued record is never answered 404. -/
theorem ApiAuth_zero_record_not_404 (env : Collaborators) (config : Config) (p : String) :
    ApiAuth env config (Except.ok [default]) (some ⟨"", p⟩)
      ≠ [Write.JSONError ⟨"there is no user with given nickname", StatusNotFound, "not-found"⟩] := by
  have hone : ([default] : List User).find? (fun user => user.Nickname == "") = some default := by
    rfl
  simp only [ApiAuth, hone]
  split
  · decide
  · split
    · decide
    · split
      · decide
      · simp

/-- The login of bob on the sample store, evaluated: status 200 and a token that spells out
the nickname `bob` and the id `1` under which `New` stored the record. -/
theorem login_bob_sample :
    ApiAuthMock sampleCollaborators sampleConfig storeAliceBob RangeOrder.reversed
        (some ⟨"bob", "secret123"⟩)
      = [Write.SetCookie
          { Name := "jwt-token", Expires := 1000 + Hour * 4, Value := "bob#i",
            HttpOnly := true, Path := "/" },
         Write.JSONIndent 200 "bob#i"] := by
  decide

/-- C5: the claim fails on the store holding the single record of alice. No record holds the
empty nickname, yet a request with the empty nickname is never answered 404, whatever the
collaborators and the order of the scan: the handler matches the zero-valued record that
`All` returns first and goes on to check the password against its empty hash; with the
sample verifier the answer is 401 `unauthorized`. -/
theorem C5_empty_nickname_not_404 :
    NicknameFree storeAlice "" ∧
      (∀ (env : Collaborators) (config : Config) (ro : RangeOrder) (p : String),
        ApiAuthMock env config storeAlice ro (some ⟨"", p⟩)
          ≠ [Write.JSONError
              ⟨"there is no user with given nickname", StatusNotFound, "not-found"⟩]) ∧
      ApiAuthMock sampleCollaborators sampleConfig storeAlice RangeOrder.stored (some ⟨"", "x"⟩)
        = [Write.JSONError ⟨"given password does not match", StatusUnauthorized, "unauthorized"⟩] := by
  refine ⟨by unfold NicknameFree; decide, ?_, by decide⟩
  intro env config ro p
  rw [ApiAuthMock_empty_nickname env config storeAlice ro p (by decide)]
  exact ApiAuth_zero_record_not_404 env config p

/-- C6: the claim fails for the empty nickname. The store holding alice is reachable and
holds no record with the empty nickname; the sample verifier accepts the hash of `anon`
with the password `secret123`; `New(anon)` returns id `1`; yet the login with the empty
nickname and that password is answered 401 `unauthorized`. Whatever the collaborators and
the order of the scan, the handler checks the request against the zero-valued record
(`ID` 0, empty hash) and never against the record stored under id `1`. -/
theorem C6_empty_nickname_login_fails :
    Reachable storeAlice ∧ NicknameFree storeAlice anon.Nickname ∧
      sampleCollaborators.CompareHashAndPassword anon.Password (bytesOf "secret123") = true ∧
      (storeAlice.New RangeOrder.stored anon).1 = Except.ok 1 ∧
      ApiAuthMock sampleCollaborators sampleConfig (storeAlice.New RangeOrder.stored anon).2
          RangeOrder.stored (some ⟨anon.Nickname, "secret123"⟩)
        = [Write.JSONError ⟨"given password does not match", StatusUnauthorized, "unauthorized"⟩] ∧
      ∀ (env : Collaborators) (config : Config) (ro : RangeOrder) (p : String),
        ApiAuthMock env config (storeAlice.New RangeOrder.stored anon).2 ro
            (some ⟨anon.Nickname, p⟩)
          = ApiAuth env config (Except.ok [default]) (some ⟨"", p⟩) := by
  refine ⟨⟨[Call.New RangeOrder.stored alice], rfl⟩, by unfold NicknameFree; decide,
    by decide, by decide, by decide, ?_⟩
  intro env config ro p
  exact ApiAuthMock_empty_nickname env config _ ro p (by decide)

theorem find?_of_unique {α : Type} (p : α → Bool) (x : α) (l : List α) (hx : x ∈ l)
    (hp : p x = true) (huniq : ∀ y ∈ l, p y = true → y = x) : l.find? p = some x := by
  induction l with
  | nil => cases hx
  | cons a l ih =>
    by_cases ha : p a = true
    · rw [List.find?_cons_of_pos _ ha, huniq a (List.mem_cons_self _ _) ha]
    · rw [List.find?_cons_of_neg _ ha]
      rcases List.mem_cons.1 hx with rfl | hxl
      · exact absurd hp ha
      · exact ih hxl (fun y hy => huniq y (List.mem_cons_of_mem _ hy))

/-- For a non-empty nickname the login after `New` does succeed: the handler finds the
record just stored, and the token is built from claims that carry the nickname and the id
that `New` returned. -/
theorem login_after_new_nonempty (env : Collaborators) (config : Config) (s : UsersStorage)
    (ro ro' : RangeOrder) (u : User) (p : String) (build : Claims → Option String)
    (token : String) (hnick : u.Nickname ≠ "") (hfree : NicknameFree s u.Nickname)
    (hpw : env.CompareHashAndPassword u.Password (bytesOf p) = true)
    (hsigner : env.NewSignerHS (bytesOf config.JWTSecret) = some build)
    (hbuild : build
      { Issuer := config.AppName, Audience := ["ls-apiv1"], Subject := "auth",
        ExpiresAt := env.Now + Hour * 48, IssuedAt := env.Now, ID := env.NewUUID,
        Nickname := u.Nickname, UserID := s.counter } = some token) :
    (s.New ro u).1 = Except.ok s.counter ∧
      ApiAuthMock env config (s.New ro u).2 ro' (some ⟨u.Nickname, p⟩)
        = [Write.SetCookie
            { Name := "jwt-token", Expires := env.Now + Hour * 4, Value := token,
              HttpOnly := true, Path := "/" },
           Write.JSONIndent StatusOK token] := by
  rw [New_of_free s ro u hfree]
  refine ⟨rfl, ?_⟩
  have hfind : (List.replicate
        (s.data.insert s.counter { u with ID := s.counter }).entries.length (default : User) ++
      (ro'.visit (s.data.insert s.counter { u with ID := s.counter }).entries).map
        (fun e => e.2)).find? (fun user => user.Nickname == u.Nickname)
      = some { u with ID := s.counter } := by
    apply find?_of_unique
    · refine List.mem_append_right _ (List.mem_map.2 ⟨⟨s.counter, { u with ID := s.counter }⟩, ?_, rfl⟩)
      rw [mem_visit, AList.insert_entries]
      exact List.mem_cons_self _ _
    · simp
    · intro y hy hyp
      have hyn : y.Nickname = u.Nickname := by simpa using hyp
      rcases List.mem_append.1 hy with h | h
      · have := List.eq_of_mem_replicate h
        subst this
        exact absurd hyn.symm hnick
      · obtain ⟨e, he, rfl⟩ := List.mem_map.1 h
        rw [mem_visit, AList.insert_entries] at he
        rcases List.mem_cons.1 he with rfl | he
        · rfl
        · exact absurd hyn (hfree e ((List.kerase_sublist _ _).subset he))
  simp only [ApiAuthMock, ApiAuth, All_eq, hfind, hpw, hsigner, hbuild]
  simp

/-! ## The outcomes of the handler -/

/-- The handler stops at the first step that fails, in the order decode, store, match,
password, signer, build; when none fails it sets the cookie and writes the token. -/
theorem ApiAuth_outcome (env : Collaborators) (config : Config)
    (db : Except StorageError (List User)) (decoded : Option payload) :
    (decoded = none ∧ ApiAuth env config db decoded
        = [Write.JSONError ⟨"could not understand payload", StatusBadRequest, "bad-request"⟩]) ∨
    (∃ input e, decoded = some input ∧ db = Except.error e ∧
      ApiAuth env config db decoded
        = [Write.JSONError ⟨"ooops! things are not going that great after all",
            StatusInternalServerError, "internal-server-error"⟩]) ∨
    (∃ input users, decoded = some input ∧ db = Except.ok users ∧
      users.find? (fun user => user.Nickname == input.Nickname) = none ∧
      ApiAuth env config db decoded
        = [Write.JSONError
            ⟨"there is no user with given nickname", StatusNotFound, "not-found"⟩]) ∨
    (∃ input users m, decoded = some input ∧ db = Except.ok users ∧
      users.find? (fun user => user.Nickname == input.Nickname) = some m ∧
      env.CompareHashAndPassword m.Password (bytesOf input.Password) = false ∧
      ApiAuth env config db decoded
        = [Write.JSONError
            ⟨"given password does not match", StatusUnauthorized, "unauthorized"⟩]) ∨
    (∃ input users m, decoded = some input ∧ db = Except.ok users ∧
      users.find? (fun user => user.Nickname == input.Nickname) = some m ∧
      env.CompareHashAndPassword m.Password (bytesOf input.Password) = true ∧
      env.NewSignerHS (bytesOf config.JWTSecret) = none ∧
      ApiAuth env config db decoded
        = [Write.JSONError ⟨"ooops! things are not going that great after all",
            StatusInternalServerError, "internal-server-error"⟩]) ∨
    (∃ input users m build, decoded = some input ∧ db = Except.ok users ∧
      users.find? (fun user => user.Nickname == input.Nickname) = some m ∧
      env.CompareHashAndPassword m.Password (bytesOf input.Password) = true ∧
      env.NewSignerHS (bytesOf config.JWTSecret) = some build ∧
      build { Issuer := config.AppName, Audience := ["ls-apiv1"], Subject := "auth",
              ExpiresAt := env.Now + Hour * 48, IssuedAt := env.Now, ID := env.NewUUID,
              Nickname := m.Nickname, UserID := m.ID } = none ∧
      ApiAuth env config db decoded
        = [Write.JSONError ⟨"ooops! things are not going that great after all",
            StatusInternalServerError, "internal-server-error"⟩]) ∨
    (∃ input users m build token, decoded = some input ∧ db = Except.ok users ∧
      users.find? (fun user => user.Nickname == input.Nickname) = some m ∧
      env.CompareHashAndPassword m.Password (bytesOf input.Password) = true ∧
      env.NewSignerHS (bytesOf config.JWTSecret) = some build ∧
      build { Issuer := config.AppName, Audience := ["ls-apiv1"], Subject := "auth",
              ExpiresAt := env.Now + Hour * 48, IssuedAt := env.Now, ID := env.NewUUID,
              Nickname := m.Nickname, UserID := m.ID } = some token ∧
      ApiAuth env config db decoded
        = [Write.SetCookie
            { Name := "jwt-token", Expires := env.Now + Hour * 4, Value := token,
              HttpOnly := true, Path := "/" },
           Write.JSONIndent StatusOK token]) := by
  cases decoded with
  | none => exact Or.inl ⟨rfl, rfl⟩
  | some input =>
    cases db with
    | error e => exact Or.inr (Or.inl ⟨input, e, rfl, rfl, rfl⟩)
    | ok users =>
      cases hfind : users.find? (fun user => user.Nickname == input.Nickname) with
      | none =>
        refine Or.inr (Or.inr (Or.inl ⟨input, users, rfl, rfl, hfind, ?_⟩))
        simp only [ApiAuth, hfind]
      | some m =>
        cases hpw : env.CompareHashAndPassword m.Password (bytesOf input.Password) with
        | false =>
          refine Or.inr (Or.inr (Or.inr (Or.inl ⟨input, users, m, rfl, rfl, hfind, hpw, ?_⟩)))
          simp only [ApiAuth, hfind, hpw, if_true]
        | true =>
          cases hsg : env.NewSignerHS (bytesOf config.JWTSecret) with
          | none =>
            refine Or.inr (Or.inr (Or.inr (Or.inr (Or.inl
              ⟨input, users, m, rfl, rfl, hfind, hpw, rfl, ?_⟩))))
            simp [ApiAuth, hfind, hpw, hsg]
          | some build =>
            rcases hb : build ⟨config.AppName, ["ls-apiv1"], "auth", env.Now + Hour * 48,
                env.Now, env.NewUUID, m.Nickname, m.ID⟩ with _ | token
            · refine Or.inr (Or.inr (Or.inr (Or.inr (Or.inr (Or.inl
                ⟨input, users, m, build, rfl, rfl, hfind, hpw, rfl, hb, ?_⟩)))))
              simp [ApiAuth, hfind, hpw, hsg, hb]
            · refine Or.inr (Or.inr (Or.inr (Or.inr (Or.inr (Or.inr
                ⟨input, users, m, build, token, rfl, rfl, hfind, hpw, rfl, hb, ?_⟩)))))
              simp [ApiAuth, hfind, hpw, hsg, hb]

/-- When the handler wrote a success body, every step succeeded: the seventh outcome. -/
theorem ApiAuth_of_success (env : Collaborators) (config : Config)
    (db : Except StorageError (List User)) (decoded : Option payload)
    (hs : successBodies (ApiAuth env config db decoded) ≠ []) :
    ∃ input users m build token, decoded = some input ∧ db = Except.ok users ∧
      users.find? (fun user => user.Nickname == input.Nickname) = some m ∧
      env.CompareHashAndPassword m.Password (bytesOf input.Password) = true ∧
      env.NewSignerHS (bytesOf config.JWTSecret) = some build ∧
      build { Issuer := config.AppName, Audience := ["ls-apiv1"], Subject := "auth",
              ExpiresAt := env.Now + Hour * 48, IssuedAt := env.Now, ID := env.NewUUID,
              Nickname := m.Nickname, UserID := m.ID } = some token ∧
      ApiAuth env config db decoded
        = [Write.SetCookie
            { Name := "jwt-token", Expires := env.Now + Hour * 4, Value := token,
              HttpOnly := true, Path := "/" },
           Write.JSONIndent StatusOK token] := by
  rcases ApiAuth_outcome env config db decoded with
    ⟨_, h⟩ | ⟨_, _, _, _, h⟩ | ⟨_, _, _, _, _, h⟩ | ⟨_, _, _, _, _, _, _, h⟩ |
    ⟨_, _, _, _, _, _, _, _, h⟩ | ⟨_, _, _, _, _, _, _, _, _, _, h⟩ | h
  · exact absurd (by rw [h]; rfl) hs
  · exact absurd (by rw [h]; rfl) hs
  · exact absurd (by rw [h]; rfl) hs
  · exact absurd (by rw [h]; rfl) hs
  · exact absurd (by rw [h]; rfl) hs
  · exact absurd (by rw [h]; rfl) hs
  · exact h

/-! ## Claims on the handler -/

/-- C11: on the success path the token is what the builder made of the claim set with
`Issuer = config.AppName`, `Audience = ["ls-apiv1"]`, `Subject = "auth"`, `IssuedAt = now`,
`ExpiresAt = now + 48 hours`, `Nickname = m.Nickname` and `UserID = m.ID`, for the single
time reading `now`, where `m` is the first element, in the order the store's `All` returned
them, whose nickname equals the nickname of the request. -/
theorem C11_claims_of_first_match (env : Collaborators) (config : Config)
    (db : Except StorageError (List User)) (decoded : Option payload)
    (hs : successBodies (ApiAuth env config db decoded) ≠ []) :
    ∃ input users before m after build token,
      decoded = some input ∧ db = Except.ok users ∧
      users = before ++ m :: after ∧ m.Nickname = input.Nickname ∧
      (∀ x ∈ before, x.Nickname ≠ input.Nickname) ∧
      env.NewSignerHS (bytesOf config.JWTSecret) = some build ∧
      build { Issuer := config.AppName, Audience := ["ls-apiv1"], Subject := "auth",
              ExpiresAt := env.Now + 48 * Hour, IssuedAt := env.Now, ID := env.NewUUID,
              Nickname := m.Nickname, UserID := m.ID } = some token ∧
      ApiAuth env config db decoded
        = [Write.SetCookie
            { Name := "jwt-token", Expires := env.Now + Hour * 4, Value := token,
              HttpOnly := true, Path := "/" },
           Write.JSONIndent StatusOK token] := by
  obtain ⟨input, users, m, build, token, hd, hdb, hfind, _, hsg, hb, hout⟩ :=
    ApiAuth_of_success env config db decoded hs
  obtain ⟨hm, before, after, husers, hbefore⟩ := List.find?_eq_some.1 hfind
  refine ⟨input, users, before, m, after, build, token, hd, hdb, husers, by simpa using hm,
    fun x hx => by simpa using hbefore x hx, hsg, ?_, hout⟩
  rw [mul_comm 48 Hour]
  exact hb

theorem C11_claims_of_first_match_witness :
    ∃ input users before m after build token,
      some (⟨"bob", "secret123"⟩ : payload) = some input ∧
      (storeAliceBob.All RangeOrder.reversed).1 = Except.ok users ∧
      users = before ++ m :: after ∧ m.Nickname = input.Nickname ∧
      (∀ x ∈ before, x.Nickname ≠ input.Nickname) ∧
      sampleCollaborators.NewSignerHS (bytesOf sampleConfig.JWTSecret) = some build ∧
      build { Issuer := sampleConfig.AppName, Audience := ["ls-apiv1"], Subject := "auth",
              ExpiresAt := sampleCollaborators.Now + 48 * Hour,
              IssuedAt := sampleCollaborators.Now, ID := sampleCollaborators.NewUUID,
              Nickname := m.Nickname, UserID := m.ID } = some token ∧
      ApiAuth sampleCollaborators sampleConfig (storeAliceBob.All RangeOrder.reversed).1
          (some ⟨"bob", "secret123"⟩)
        = [Write.SetCookie
            { Name := "jwt-token", Expires := sampleCollaborators.Now + Hour * 4, Value := token,
              HttpOnly := true, Path := "/" },
           Write.JSONIndent StatusOK token] :=
  C11_claims_of_first_match sampleCollaborators sampleConfig
    (storeAliceBob.All RangeOrder.reversed).1 (some ⟨"bob", "secret123"⟩) (by decide)

/-- C12: on the success path the response is exactly one cookie followed by the body with
status 200. The cookie is named `jwt-token`, its value is the token written in the body, it
is `HttpOnly`, its path is `/`, and it expires at `now + 4 hours` for the same `now` that
is the `IssuedAt` of the claims the token was built from (the claim set of some record
`m`); the `ExpiresAt` of those claims is 44 hours after the expiry of the cookie. -/
theorem C12_cookie_on_success (env : Collaborators) (config : Config)
    (db : Except StorageError (List User)) (decoded : Option payload)
    (hs : successBodies (ApiAuth env config db decoded) ≠ []) :
    ∃ (m : User) (build : Claims → Option String) (claims : Claims) (token : String),
      claims = { Issuer := config.AppName, Audience := ["ls-apiv1"], Subject := "auth",
                 ExpiresAt := env.Now + Hour * 48, IssuedAt := env.Now, ID := env.NewUUID,
                 Nickname := m.Nickname, UserID := m.ID } ∧
      env.NewSignerHS (bytesOf config.JWTSecret) = some build ∧ build claims = some token ∧
      claims.IssuedAt = env.Now ∧
      cookies (ApiAuth env config db decoded)
        = [{ Name := "jwt-token", Expires := env.Now + 4 * Hour, Value := token,
             HttpOnly := true, Path := "/" }] ∧
      successBodies (ApiAuth env config db decoded) = [(200, token)] ∧
      errorResponses (ApiAuth env config db decoded) = [] ∧
      (ApiAuth env config db decoded).length = 2 ∧
      claims.ExpiresAt = (env.Now + 4 * Hour) + 44 * Hour ∧
      Hour = 3600 * 1000000000 := by
  obtain ⟨input, users, m, build, token, _, _, _, _, hsg, hb, hout⟩ :=
    ApiAuth_of_success env config db decoded hs
  refine ⟨m, build, _, token, rfl, hsg, hb, rfl, ?_, ?_, ?_, ?_, ?_, rfl⟩
  · rw [hout, mul_comm 4 Hour]
    rfl
  · rw [hout]
    rfl
  · rw [hout]
    rfl
  · rw [hout]
    rfl
  · show env.Now + Hour * 48 = env.Now + 4 * Hour + 44 * Hour
    ring

theorem C12_cookie_on_success_witness :
    ∃ (m : User) (build : Claims → Option String) (claims : Claims) (token : String),
      claims = { Issuer := sampleConfig.AppName, Audience := ["ls-apiv1"], Subject := "auth",
                 ExpiresAt := sampleCollaborators.Now + Hour * 48,
                 IssuedAt := sampleCollaborators.Now, ID := sampleCollaborators.NewUUID,
                 Nickname := m.Nickname, UserID := m.ID } ∧
      sampleCollaborators.NewSignerHS (bytesOf sampleConfig.JWTSecret) = some build ∧
      build claims = some token ∧
      claims.IssuedAt = sampleCollaborators.Now ∧
      cookies (ApiAuth sampleCollaborators sampleConfig (storeAliceBob.All RangeOrder.stored).1
          (some ⟨"alice", "secret123"⟩))
        = [{ Name := "jwt-token", Expires := sampleCollaborators.Now + 4 * Hour, Value := token,
             HttpOnly := true, Path := "/" }] ∧
      successBodies (ApiAuth sampleCollaborators sampleConfig
          (storeAliceBob.All RangeOrder.stored).1 (some ⟨"alice", "secret123"⟩))
        = [(200, token)] ∧
      errorResponses (ApiAuth sampleCollaborators sampleConfig
          (storeAliceBob.All RangeOrder.stored).1 (some ⟨"alice", "secret123"⟩)) = [] ∧
      (ApiAuth sampleCollaborators sampleConfig (storeAliceBob.All RangeOrder.stored).1
          (some ⟨"alice", "secret123"⟩)).length = 2 ∧
      claims.ExpiresAt = (sampleCollaborators.Now + 4 * Hour) + 44 * Hour ∧
      Hour = 3600 * 1000000000 :=
  C12_cookie_on_success sampleCollaborators sampleConfig (storeAliceBob.All RangeOrder.stored).1
    (some ⟨"alice", "secret123"⟩) (by decide)

/-- C13: whatever the decoder, the store, the verifier, the signer and the builder do, the
response is either exactly one error response or exactly one cookie followed by the 200
body. When an error response is written, no cookie is set, no success body is written and
that error response is the only write; a cookie is set exactly when the 200 body is written
and no error response is. -/
theorem C13_no_cookie_on_failure (env : Collaborators) (config : Config)
    (db : Except StorageError (List User)) (decoded : Option payload) :
    ((∃ b, ApiAuth env config db decoded = [Write.JSONError b]) ∨
      (∃ c token, ApiAuth env config db decoded
        = [Write.SetCookie c, Write.JSONIndent 200 token])) ∧
    (errorResponses (ApiAuth env config db decoded) ≠ [] →
      cookies (ApiAuth env config db decoded) = [] ∧
      successBodies (ApiAuth env config db decoded) = [] ∧
      (errorResponses (ApiAuth env config db decoded)).length = 1 ∧
      (ApiAuth env config db decoded).length = 1) ∧
    (cookies (ApiAuth env config db decoded) ≠ [] ↔
      (∃ token, successBodies (ApiAuth env config db decoded) = [(200, token)]) ∧
        errorResponses (ApiAuth env config db decoded) = []) := by
  have key : (∃ b, ApiAuth env config db decoded = [Write.JSONError b]) ∨
      (∃ c token, ApiAuth env config db decoded
        = [Write.SetCookie c, Write.JSONIndent 200 token]) := by
    rcases ApiAuth_outcome env config db decoded with
      ⟨_, h⟩ | ⟨_, _, _, _, h⟩ | ⟨_, _, _, _, _, h⟩ | ⟨_, _, _, _, _, _, _, h⟩ |
      ⟨_, _, _, _, _, _, _, _, h⟩ | ⟨_, _, _, _, _, _, _, _, _, _, h⟩ |
      ⟨_, _, _, _, _, _, _, _, _, _, _, h⟩
    · exact Or.inl ⟨_, h⟩
    · exact Or.inl ⟨_, h⟩
    · exact Or.inl ⟨_, h⟩
    · exact Or.inl ⟨_, h⟩
    · exact Or.inl ⟨_, h⟩
    · exact Or.inl ⟨_, h⟩
    · exact Or.inr ⟨_, _, h⟩
  refine ⟨key, ?_, ?_⟩
  · rcases key with ⟨b, h⟩ | ⟨c, token, h⟩
    · intro _
      rw [h]
      exact ⟨rfl, rfl, rfl, rfl⟩
    · intro hne
      rw [h] at hne
      exact absurd rfl hne
  · rcases key with ⟨b, h⟩ | ⟨c, token, h⟩
    · rw [h]
      constructor
      · intro hne
        exact absurd rfl hne
      · rintro ⟨_, he⟩
        cases he
    · rw [h]
      constructor
      · intro _
        exact ⟨⟨token, rfl⟩, rfl⟩
      · intro _ hc
        cases hc

theorem C13_no_cookie_on_failure_witness :
    cookies (ApiAuth sampleCollaborators sampleConfig (storeAlice.All RangeOrder.stored).1
        (some ⟨"alice", "wrong"⟩)) = [] ∧
      successBodies (ApiAuth sampleCollaborators sampleConfig
        (storeAlice.All RangeOrder.stored).1 (some ⟨"alice", "wrong"⟩)) = [] ∧
      (errorResponses (ApiAuth sampleCollaborators sampleConfig
        (storeAlice.All RangeOrder.stored).1 (some ⟨"alice", "wrong"⟩))).length = 1 ∧
      (ApiAuth sampleCollaborators sampleConfig (storeAlice.All RangeOrder.stored).1
        (some ⟨"alice", "wrong"⟩)).length = 1 :=
  (C13_no_cookie_on_failure sampleCollaborators sampleConfig
    (storeAlice.All RangeOrder.stored).1 (some ⟨"alice", "wrong"⟩)).2.1 (by decide)

/-- C14: the response is that of the first failing step, in the order decode, store `All`,
nickname match, password check, signer, build: 400 `bad-request` (whatever the store would
return), 500 `internal-server-error`, 404 `not-found`, 401 `unauthorized` (whatever the
signer and the builder would do), 500, 500; and when no step fails, the cookie and the 200
body. Conversely a 200 body is written only when no step failed. -/
theorem C14_first_failure_decides (env : Collaborators) (config : Config) :
    (∀ db, ApiAuth env config db none
      = [Write.JSONError ⟨"could not understand payload", 400, "bad-request"⟩]) ∧
    (∀ input e, ApiAuth env config (Except.error e) (some input)
      = [Write.JSONError ⟨"ooops! things are not going that great after all", 500,
          "internal-server-error"⟩]) ∧
    (∀ input users, users.find? (fun user => user.Nickname == input.Nickname) = none →
      ApiAuth env config (Except.ok users) (some input)
        = [Write.JSONError ⟨"there is no user with given nickname", 404, "not-found"⟩]) ∧
    (∀ input users m, users.find? (fun user => user.Nickname == input.Nickname) = some m →
      env.CompareHashAndPassword m.Password (bytesOf input.Password) = false →
      ∀ signer now uuid,
        ApiAuth { env with NewSignerHS := signer, Now := now, NewUUID := uuid } config
            (Except.ok users) (some input)
          = [Write.JSONError ⟨"given password does not match", 401, "unauthorized"⟩]) ∧
    (∀ input users m, users.find? (fun user => user.Nickname == input.Nickname) = some m →
      env.CompareHashAndPassword m.Password (bytesOf input.Password) = true →
      env.NewSignerHS (bytesOf config.JWTSecret) = none →
      ApiAuth env config (Except.ok users) (some input)
        = [Write.JSONError ⟨"ooops! things are not going that great after all", 500,
            "internal-server-error"⟩]) ∧
    (∀ input users m build,
      users.find? (fun user => user.Nickname == input.Nickname) = some m →
      env.CompareHashAndPassword m.Password (bytesOf input.Password) = true →
      env.NewSignerHS (bytesOf config.JWTSecret) = some build →
      build { Issuer := config.AppName, Audience := ["ls-apiv1"], Subject := "auth",
              ExpiresAt := env.Now + Hour * 48, IssuedAt := env.Now, ID := env.NewUUID,
              Nickname := m.Nickname, UserID := m.ID } = none →
      ApiAuth env config (Except.ok users) (some input)
        = [Write.JSONError ⟨"ooops! things are not going that great after all", 500,
            "internal-server-error"⟩]) ∧
    (∀ input users m build token,
      users.find? (fun user => user.Nickname == input.Nickname) = some m →
      env.CompareHashAndPassword m.Password (bytesOf input.Password) = true →
      env.NewSignerHS (bytesOf config.JWTSecret) = some build →
      build { Issuer := config.AppName, Audience := ["ls-apiv1"], Subject := "auth",
              ExpiresAt := env.Now + Hour * 48, IssuedAt := env.Now, ID := env.NewUUID,
              Nickname := m.Nickname, UserID := m.ID } = some token →
      ApiAuth env config (Except.ok users) (some input)
        = [Write.SetCookie
            { Name := "jwt-token", Expires := env.Now + Hour * 4, Value := token,
              HttpOnly := true, Path := "/" },
           Write.JSONIndent 200 token]) ∧
    (∀ db decoded, successBodies (ApiAuth env config db decoded) ≠ [] →
      ∃ input users m build token, decoded = some input ∧ db = Except.ok users ∧
        users.find? (fun user => user.Nickname == input.Nickname) = some m ∧
        env.CompareHashAndPassword m.Password (bytesOf input.Password) = true ∧
        env.NewSignerHS (bytesOf config.JWTSecret) = some build ∧
        build { Issuer := config.AppName, Audience := ["ls-apiv1"], Subject := "auth",
                ExpiresAt := env.Now + Hour * 48, IssuedAt := env.Now, ID := env.NewUUID,
                Nickname := m.Nickname, UserID := m.ID } = some token ∧
        successBodies (ApiAuth env config db decoded) = [(200, token)]) := by
  refine ⟨fun db => rfl, fun input e => rfl, ?_, ?_, ?_, ?_, ?_, ?_⟩
  · intro input users hfind
    simp only [ApiAuth, hfind]
    rfl
  · intro input users m hfind hpw signer now uuid
    simp only [ApiAuth, hfind, hpw, if_true]
    rfl
  · intro input users m hfind hpw hsg
    simp [ApiAuth, hfind, hpw, hsg]
    rfl
  · intro input users m build hfind hpw hsg hb
    simp [ApiAuth, hfind, hpw, hsg, hb]
    rfl
  · intro input users m build token hfind hpw hsg hb
    simp [ApiAuth, hfind, hpw, hsg, hb]
    rfl
  · intro db decoded hs
    obtain ⟨input, users, m, build, token, hd, hdb, hfind, hpw, hsg, hb, hout⟩ :=
      ApiAuth_of_success env config db decoded hs
    refine ⟨input, users, m, build, token, hd, hdb, hfind, hpw, hsg, hb, ?_⟩
    rw [hout]
    rfl

theorem C14_first_failure_decides_witness :
    ApiAuth sampleCollaborators sampleConfig (Except.error (ErrNoID 0)) none
        = [Write.JSONError ⟨"could not understand payload", 400, "bad-request"⟩] ∧
      ApiAuth sampleCollaborators sampleConfig (Except.ok [default, { alice with ID := 0 }])
          (some ⟨"carol", "secret123"⟩)
        = [Write.JSONError ⟨"there is no user with given nickname", 404, "not-found"⟩] ∧
      ApiAuth { sampleCollaborators with NewSignerHS := fun _ => none, Now := 5, NewUUID := "x" }
          sampleConfig (Except.ok [default, { alice with ID := 0 }]) (some ⟨"alice", "wrong"⟩)
        = [Write.JSONError ⟨"given password does not match", 401, "unauthorized"⟩] ∧
      ApiAuth { sampleCollaborators with NewSignerHS := fun _ => none } sampleConfig
          (Except.ok [default, { alice with ID := 0 }]) (some ⟨"alice", "secret123"⟩)
        = [Write.JSONError ⟨"ooops! things are not going that great after all", 500,
            "internal-server-error"⟩] :=
  ⟨(C14_first_failure_decides sampleCollaborators sampleConfig).1 (Except.error (ErrNoID 0)),
   (C14_first_failure_decides sampleCollaborators sampleConfig).2.2.1
     ⟨"carol", "secret123"⟩ [default, { alice with ID := 0 }] (by decide),
   (C14_first_failure_decides sampleCollaborators sampleConfig).2.2.2.1
     ⟨"alice", "wrong"⟩ [default, { alice with ID := 0 }] { alice with ID := 0 }
     (by decide) (by decide) (fun _ => none) 5 "x",
   (C14_first_failure_decides { sampleCollaborators with NewSignerHS := fun _ => none }
     sampleConfig).2.2.2.2.1
     ⟨"alice", "secret123"⟩ [default, { alice with ID := 0 }] { alice with ID := 0 }
     (by decide) (by decide) rfl⟩

/-! ## Claims on the invariants of the store -/

/-- Two `New` calls with the same nickname made one after the other, in a state where the
nickname is free: the first succeeds and the second fails with `NicknameTaken`, whatever
else the two records hold and whatever order the scans take. -/
theorem second_New_same_nickname_fails (s : UsersStorage) (ro₁ ro₂ : RangeOrder)
    (u₁ u₂ : User) (hsame : u₂.Nickname = u₁.Nickname) (hfree : NicknameFree s u₁.Nickname) :
    (s.New ro₁ u₁).1 = Except.ok s.counter ∧
      ((s.New ro₁ u₁).2.New ro₂ u₂).1 = Except.error (ErrNicknameTaken u₁.Nickname) ∧
      ((s.New ro₁ u₁).2.New ro₂ u₂).2 = (s.New ro₁ u₁).2 := by
  rw [New_of_free s ro₁ u₁ hfree]
  refine ⟨rfl, ?_⟩
  rw [New_of_taken _ ro₂ u₂ ⟨⟨s.counter, { u₁ with ID := s.counter }⟩, by
    simp only [AList.insert_entries]
    exact List.mem_cons_self _ _, hsame.symm⟩, hsame]
  exact ⟨rfl, rfl⟩

/-- C16: `Update` does not keep nicknames unique. The store holding alice under key 0 and
bob under key 1 is reachable and has distinct nicknames; `Update` with a record of `ID` 0
and nickname `bob` returns no error, and afterwards the records under the distinct keys 0
and 1 both hold the nickname `bob`. -/
theorem C16_update_breaks_uniqueness :
    ∃ (s : UsersStorage) (u : User), Reachable s ∧ UniqueNicknames s ∧ u.ID ∈ s.data ∧
      (s.Update u).1 = none ∧
      (∃ e₁ ∈ (s.Update u).2.data.entries, ∃ e₂ ∈ (s.Update u).2.data.entries,
        e₁.1 ≠ e₂.1 ∧ e₁.2.Nickname = e₂.2.Nickname) ∧
      ¬ UniqueNicknames (s.Update u).2 := by
  have hdup : ∃ e₁ ∈ (storeAliceBob.Update { bob with ID := 0 }).2.data.entries,
      ∃ e₂ ∈ (storeAliceBob.Update { bob with ID := 0 }).2.data.entries,
        e₁.1 ≠ e₂.1 ∧ e₁.2.Nickname = e₂.2.Nickname := by decide
  refine ⟨storeAliceBob, { bob with ID := 0 },
    ⟨[Call.New RangeOrder.stored alice, Call.New RangeOrder.stored bob], rfl⟩,
    by unfold UniqueNicknames; decide, by decide, by decide, hdup, ?_⟩
  intro hu
  obtain ⟨e₁, h₁, e₂, h₂, hne, heq⟩ := hdup
  exact hu e₁ h₁ e₂ h₂ hne heq

/-- The methods `Read` and `All` leave the store as it is. -/
theorem Read_state (s : UsersStorage) (id : Int) : (s.Read id).2 = s := by
  unfold UsersStorage.Read
  split <;> rfl

theorem All_state (s : UsersStorage) (ro : RangeOrder) : (s.All ro).2 = s := rfl

theorem Dense_New (s : UsersStorage) (ro : RangeOrder) (u : User) (hs : Dense s) :
    Dense (s.New ro u).2 := by
  rcases New_cases s ro u with ⟨_, h⟩ | ⟨_, h⟩
  · rw [h]
    obtain ⟨hk, hl, hc⟩ := hs
    have hnot : s.counter ∉ s.data := fun hin => lt_irrefl _ ((hk s.counter).1 hin).2
    refine ⟨fun k => ?_, ?_, ?_⟩
    · simp only [AList.mem_insert, hk k]
      constructor
      · rintro (rfl | ⟨h0, h1⟩)
        · exact ⟨hc, by omega⟩
        · exact ⟨h0, by omega⟩
      · rintro ⟨h0, h1⟩
        by_cases hkc : k = s.counter
        · exact Or.inl hkc
        · exact Or.inr ⟨h0, by omega⟩
    · simp only [AList.insert_entries_of_neg hnot, List.length_cons]
      push_cast
      omega
    · show 0 ≤ s.counter + 1
      omega
  · rw [h]
    exact hs

theorem length_insert_of_mem (d : UserMap) (k : Int) (u : User) (h : k ∈ d) :
    (d.insert k u).entries.length = d.entries.length := by
  obtain ⟨b, l₁, l₂, _, hl, hker⟩ := List.exists_of_kerase (AList.mem_keys.1 h)
  rw [AList.insert_entries, hker, hl]
  simp only [List.length_cons, List.length_append]
  omega

theorem Dense_Update (s : UsersStorage) (u : User) (hs : Dense s) : Dense (s.Update u).2 := by
  rcases Update_cases s u with ⟨hin, h⟩ | ⟨_, h⟩
  · rw [h]
    obtain ⟨hk, hl, hc⟩ := hs
    refine ⟨fun k => ?_, ?_, hc⟩
    · rw [← hk k]
      simp only [AList.mem_insert]
      constructor
      · rintro (rfl | hkd)
        · exact hin
        · exact hkd
      · exact Or.inr
    · show (((s.data.insert u.ID u).entries.length : Nat) : Int) = s.counter
      rw [length_insert_of_mem s.data u.ID u hin]
      exact hl
  · rw [h]
    exact hs

theorem Dense_fresh : Dense Factory.Users := by
  refine ⟨fun k => ?_, rfl, le_refl _⟩
  constructor
  · intro hk
    exact absurd hk (AList.not_mem_empty k)
  · rintro ⟨h0, h1⟩
    exact absurd h1 (not_lt.2 h0)

theorem Dense_run (cs : List Call) (s : UsersStorage) (hs : Dense s) : Dense (run s cs).2 := by
  induction cs generalizing s with
  | nil => exact hs
  | cons c cs ih =>
    cases c with
    | New ro u => exact ih _ (Dense_New s ro u hs)
    | Update u => exact ih _ (Dense_Update s u hs)

/-- C3: in every state the store can be in, that is every state reachable from the fresh
store by `New` and `Update` calls, with counter `c`, for a user `u` whose nickname no stored
record holds, `New(u)` returns `c` itself, the record under key `c` afterwards is `u` with
`ID` set to `c`, and the counter afterwards is `c + 1`; the first `New` on a fresh store
returns `0`. In such a state `c` is not negative and is the number of stored records, so
`c + 1` stays within the 64-bit range of Go's `int` unless the store holds `2^63 - 1`
records. -/
theorem C3_new_assigns_counter (s : UsersStorage) (ro : RangeOrder) (u : User)
    (hr : Reachable s) (hfree : NicknameFree s u.Nickname) :
    (s.New ro u).1 = Except.ok s.counter ∧
      (s.New ro u).2.data.lookup s.counter = some { u with ID := s.counter } ∧
      (s.New ro u).2.counter = s.counter + 1 ∧
      (Factory.Users.New ro u).1 = Except.ok 0 ∧
      0 ≤ s.counter ∧ (s.data.entries.length : Int) = s.counter := by
  obtain ⟨cs, rfl⟩ := hr
  obtain ⟨_, hlen, hpos⟩ := Dense_run cs Factory.Users Dense_fresh
  rw [New_of_free _ ro u hfree]
  refine ⟨rfl, AList.lookup_insert _, rfl, ?_, hpos, hlen⟩
  rw [New_of_free Factory.Users ro u (fun e he => by simp [Factory.Users] at he)]
  rfl

theorem C3_new_assigns_counter_witness :
    (storeAlice.New RangeOrder.stored bob).1 = Except.ok storeAlice.counter ∧
      (storeAlice.New RangeOrder.stored bob).2.data.lookup storeAlice.counter
        = some { bob with ID := storeAlice.counter } ∧
      (storeAlice.New RangeOrder.stored bob).2.counter = storeAlice.counter + 1 ∧
      (Factory.Users.New RangeOrder.stored bob).1 = Except.ok 0 ∧
      0 ≤ storeAlice.counter ∧ (storeAlice.data.entries.length : Int) = storeAlice.counter :=
  C3_new_assigns_counter storeAlice RangeOrder.stored bob
    ⟨[Call.New RangeOrder.stored alice], rfl⟩ (by unfold NicknameFree; decide)

theorem Dense_runOps (ops : List Op) (s : UsersStorage) (hs : Dense s) :
    Dense (runOps s ops) := by
  induction ops generalizing s with
  | nil => exact hs
  | cons op ops ih =>
    cases op with
    | New ro u => exact ih _ (Dense_New s ro u hs)
    | Read id =>
      simp only [runOps, Op.after, Read_state]
      exact ih s hs
    | All ro => exact ih s hs
    | Update u => exact ih _ (Dense_Update s u hs)

/-- C17: in every state reached from the fresh store by `New`, `Read`, `All` and `Update`
calls, the keys of the map are exactly the integers from 0 up to the counter minus one, the
number of records equals the counter, the counter is not negative, and a `New` that succeeds
leaves every record stored before as it was and makes the number of records grow by one. -/
theorem C17_keys_are_initial_segment (ops : List Op) :
    (∀ k : Int, k ∈ (runOps Factory.Users ops).data ↔
      0 ≤ k ∧ k < (runOps Factory.Users ops).counter) ∧
    ((runOps Factory.Users ops).data.entries.length : Int) = (runOps Factory.Users ops).counter ∧
    0 ≤ (runOps Factory.Users ops).counter ∧
    ∀ (ro : RangeOrder) (u : User) (id : Int),
      ((runOps Factory.Users ops).New ro u).1 = Except.ok id →
      (∀ k v, (runOps Factory.Users ops).data.lookup k = some v →
        ((runOps Factory.Users ops).New ro u).2.data.lookup k = some v) ∧
      ((runOps Factory.Users ops).New ro u).2.data.entries.length
        = (runOps Factory.Users ops).data.entries.length + 1 := by
  have hinit : Dense Factory.Users := by
    refine ⟨fun k => ?_, rfl, le_refl _⟩
    constructor
    · intro hk
      exact absurd hk (AList.not_mem_empty k)
    · rintro ⟨h0, h1⟩
      exact absurd h1 (not_lt.2 h0)
  obtain ⟨hk, hl, hc⟩ := Dense_runOps ops Factory.Users hinit
  refine ⟨hk, hl, hc, ?_⟩
  intro ro u id hok
  have hnot : (runOps Factory.Users ops).counter ∉ (runOps Factory.Users ops).data :=
    fun hin => lt_irrefl _ ((hk _).1 hin).2
  rcases New_cases (runOps Factory.Users ops) ro u with ⟨_, h⟩ | ⟨_, h⟩
  · rw [h]
    refine ⟨fun k v hkv => ?_, ?_⟩
    · have hne : k ≠ (runOps Factory.Users ops).counter := by
        rintro rfl
        exact hnot (AList.lookup_isSome.1 (by simp [hkv]))
      simp only [AList.lookup_insert_ne hne, hkv]
    · simp only [AList.insert_entries_of_neg hnot, List.length_cons]
  · rw [h] at hok
    cases hok

theorem C17_keys_are_initial_segment_witness :
    (∀ k v, (runOps Factory.Users [Op.New RangeOrder.stored alice, Op.Read 0,
          Op.All RangeOrder.reversed, Op.Update { bob with ID := 0 }]).data.lookup k = some v →
        ((runOps Factory.Users [Op.New RangeOrder.stored alice, Op.Read 0,
          Op.All RangeOrder.reversed, Op.Update { bob with ID := 0 }]).New
            RangeOrder.stored alice).2.data.lookup k = some v) ∧
      ((runOps Factory.Users [Op.New RangeOrder.stored alice, Op.Read 0,
          Op.All RangeOrder.reversed, Op.Update { bob with ID := 0 }]).New
            RangeOrder.stored alice).2.data.entries.length
        = (runOps Factory.Users [Op.New RangeOrder.stored alice, Op.Read 0,
            Op.All RangeOrder.reversed, Op.Update { bob with ID := 0 }]).data.entries.length + 1 :=
  (C17_keys_are_initial_segment [Op.New RangeOrder.stored alice, Op.Read 0,
    Op.All RangeOrder.reversed, Op.Update { bob with ID := 0 }]).2.2.2
    RangeOrder.stored alice 1 (by decide)

/-- C18: in every state, `All` returns no error and a sequence twice as long as the number
`n` of stored records: its first `n` elements are zero-valued records (`ID` 0, empty
nickname, empty password hash), its last `n` elements are a rearrangement of the stored
records, and the store after the call is the store before. -/
theorem C18_all_returns_twice_as_many (s : UsersStorage) (ro : RangeOrder) :
    ∃ res, (s.All ro).1 = Except.ok res ∧
      res.length = 2 * s.data.entries.length ∧
      res.take s.data.entries.length
        = List.replicate s.data.entries.length
            { ID := 0, Nickname := "", Password := [], Profile := [] } ∧
      List.Perm (res.drop s.data.entries.length) (s.data.entries.map (fun e => e.2)) ∧
      (s.All ro).2 = s := by
  refine ⟨_, by rw [All_eq], ?_, ?_, ?_, rfl⟩
  · simp only [List.length_append, List.length_replicate, List.length_map,
      (ro.perm s.data.entries).length_eq]
    omega
  · rw [List.take_left']
    · rfl
    · simp
  · rw [List.drop_left']
    · exact (ro.perm s.data.entries).map _
    · simp

end LongSeason
